import Mathlib

/-!
# Verification of the 8ball character device (src/8ball.c)

Shallow embedding of the driver's four file operations.

Modelling conventions:
* The 80-byte message buffer `msg` is a `List Nat` of length 80 whose
  entries are byte values.  The kernel compiles C `char` as unsigned
  (`-funsigned-char`, mandatory since Linux 6.2, and the driver targets
  modern kernels via its `KERNEL_VERSION(6,4,0)` switch), so `msg[i]`
  contributes its unsigned value 0..255 to the checksum loop in
  `device_read`.
* Answer strings are Lean `String`s; the C NUL terminator of a string
  literal sits at index `length`, the end of the character list.  None
  of the ten literals contains an interior NUL.  The C dereference
  `*(msg_ptr + *offset)` is defined only for offsets up to and
  including the terminator: past it the driver reads out of bounds
  into adjacent rodata with undetermined result.  `cstrGet` is total
  for convenience (NUL past the end), but no theorem below evaluates
  the read path beyond the terminator, and no bound is claimed on the
  file position of states whose cursor has left the selected string.
* `copy_from_user` is modelled by the number `readable` of bytes of the
  user source that are accessible: it copies `min len readable` bytes
  and zero-fills the remainder of the destination window (as the kernel
  primitive does), returning the number of bytes it could not copy.
* Both `device_read` and `device_write` receive `&file->f_pos` as their
  `loff_t *offset`, so in a session the two operations share one file
  position; `SysState.fpos` models it.  A successful `open` creates a
  fresh `struct file`, hence a file position of 0.
-/

namespace Ball

def MSG_LEN : Nat := 80

def NUM_CHOICES : Nat := 10

def EBUSY : Int := 16

def EFAULT : Int := 14

/-- The `switch(decision)` of `device_read`: the ten literal answer
strings.  The default branch is unreachable in the C code (`decision`
is a non-negative value reduced `% NUM_CHOICES`); it is mapped to the
empty string here. -/
def select_msg (decision : Nat) : String :=
  match decision with
  | 0 => "Yes.\n"
  | 1 => "Without a doubt.\n"
  | 2 => "You\x27re better off not knowing.\n"
  | 3 => "YES YES YES!!!\n"
  | 4 => "Concentrate and ask again\n"
  | 5 => "No.\n"
  | 6 => "NO NO NO!!!\n"
  | 7 => "Not with that attitude.\n"
  | 8 => "That knowledge is kept even from me.\n"
  | 9 => "Signs point to yes.\n"
  | _ => ""

/-- The answer table as an ordered sequence (spec §9 / Glossary view of
the switch). -/
def answerTable : List String :=
  ["Yes.\n", "Without a doubt.\n", "You\x27re better off not knowing.\n",
   "YES YES YES!!!\n", "Concentrate and ask again\n", "No.\n",
   "NO NO NO!!!\n", "Not with that attitude.\n",
   "That knowledge is kept even from me.\n", "Signs point to yes.\n"]

/-- The checksum loop of `device_read`:
`for(i = 0; i < MSG_LEN; i++) decision += msg[i];`. -/
def checksum (msg : List Nat) : Nat := msg.sum

/-- `decision %= NUM_CHOICES;` -/
def decision (msg : List Nat) : Nat := checksum msg % NUM_CHOICES

/-- Dereference position `i` of a C string: the characters of the
literal, then the NUL terminator at index `s.length`.  Positions beyond
the terminator are out of bounds in C; the default here is a total
extension only, and the theorems below never rely on it. -/
def cstrGet (s : List Char) (i : Nat) : Char := s.getD i (Char.ofNat 0)

/-- The copy loop of `device_read`:
`while(length && *msg_ptr){ put_user(*(msg_ptr++), buffer++); length--; bytes_read++; }`.
`s` is the tail of the selected string from the current `msg_ptr` on;
the terminator that stops the loop is the end of the list. -/
def readLoop : List Char → Nat → List Char
  | _, 0 => []
  | [], _ + 1 => []
  | c :: rest, n + 1 => c :: readLoop rest n

/-- Result of `device_read`: bytes copied to the user buffer, the
`ssize_t` return value, and the updated `*offset`. -/
structure ReadResult where
  bytes : List Char
  ret : Int
  offset : Nat
  deriving Repr, DecidableEq

/-- The C string `msg_ptr` points to after the `switch`, as a character
list. -/
def selStr (msg : List Nat) : List Char := (select_msg (decision msg)).data

/-- `device_read` (src/8ball.c:140-209): the check
`if(!*(msg_ptr + *offset))` resets the offset and reports 0 bytes;
otherwise the copy loop runs from `msg_ptr + *offset`, then
`*offset += bytes_read`. -/
def device_read (msg : List Nat) (length : Nat) (offset : Nat) : ReadResult :=
  if cstrGet (selStr msg) offset = Char.ofNat 0 then
    ⟨[], 0, 0⟩
  else
    ⟨readLoop ((selStr msg).drop offset) length,
     ((readLoop ((selStr msg).drop offset) length).length : Int),
     offset + (readLoop ((selStr msg).drop offset) length).length⟩

/-- `copy_from_user(dst, buffer, len)` modelled by the accessible byte
count `readable` of the user source: copies `min len readable` bytes,
zero-fills the rest of the `len`-byte destination window, and returns
the number of bytes it could not copy. -/
def copy_from_user_bytes (src : List Nat) (readable len : Nat) :
    List Nat × Nat :=
  if len ≤ readable then (src.take len, 0)
  else (src.take readable ++ List.replicate (len - readable) 0, len - readable)

/-- Result of `device_write`: the message buffer after the call, the
`ssize_t` return value, and the updated `*offset`. -/
structure WriteResult where
  msg : List Nat
  ret : Int
  offset : Nat
  deriving Repr, DecidableEq

/-- `ssize_t len = min(length, (size_t)(MSG_LEN - *offset));` where the
requested length is the length of the user source `src`. -/
def wlen (src : List Nat) (offset : Nat) : Nat :=
  min src.length (MSG_LEN - offset)

/-- The message buffer after `copy_from_user(msg + *offset, buffer, len)`:
the `len`-byte window at `offset` is replaced by what the copy
delivered. -/
def wbuf (msg src : List Nat) (readable offset : Nat) : List Nat :=
  msg.take offset ++ (copy_from_user_bytes src readable (wlen src offset)).1 ++
    msg.drop (offset + wlen src offset)

/-- `device_write` (src/8ball.c:212-234).  The requested length is the
length of the user source `src`; `readable` bounds what
`copy_from_user` can actually fetch from it. -/
def device_write (msg : List Nat) (src : List Nat) (readable : Nat)
    (offset : Nat) : WriteResult :=
  if MSG_LEN ≤ offset then
    ⟨msg, 0, 0⟩
  else if (copy_from_user_bytes src readable (wlen src offset)).2 ≠ 0 then
    ⟨wbuf msg src readable offset, -EFAULT, offset⟩
  else
    ⟨wbuf msg src readable offset, (wlen src offset : Int),
     offset + wlen src offset⟩

/-- Whole-driver state: the atomic `dev_open` flag, the `msg` buffer,
and the file position of the (single) open descriptor. -/
structure SysState where
  dev_open : Bool
  msg : List Nat
  fpos : Nat
  deriving Repr, DecidableEq

/-- State at module load: flag `CDEV_NOT_USED`, zero-initialised static
buffer. -/
def initState : SysState := ⟨false, List.replicate MSG_LEN 0, 0⟩

/-- `device_open` (src/8ball.c:106-125): `atomic_cmpxchg` on `dev_open`;
on success a fresh `struct file` is created, so the file position is 0. -/
def do_open (s : SysState) : SysState × Int :=
  if s.dev_open then (s, -EBUSY)
  else ({ s with dev_open := true, fpos := 0 }, 0)

/-- `device_release` (src/8ball.c:128-137): `atomic_set(&dev_open, CDEV_NOT_USED)`. -/
def do_release (s : SysState) : SysState := { s with dev_open := false }

/-- The four file operations as driver-level events. -/
inductive Op where
  | op_open : Op
  | op_close : Op
  | op_read (length : Nat) : Op
  | op_write (src : List Nat) (readable : Nat) : Op
  deriving Repr, DecidableEq

/-- One VFS call against the driver.  `read`/`write` are only issued by
the VFS on an open descriptor; on a closed device they are no-ops here.
Returns the new state, the bytes delivered to the user, and the return
value. -/
def step (s : SysState) (o : Op) : SysState × List Char × Int :=
  match o with
  | .op_open =>
      let r := do_open s
      (r.1, [], r.2)
  | .op_close => (do_release s, [], 0)
  | .op_read len =>
      if s.dev_open then
        let r := device_read s.msg len s.fpos
        ({ s with fpos := r.offset }, r.bytes, r.ret)
      else (s, [], 0)
  | .op_write src readable =>
      if s.dev_open then
        let r := device_write s.msg src readable s.fpos
        ({ s with msg := r.msg, fpos := r.offset }, [], r.ret)
      else (s, [], 0)

/-- Run a sequence of calls, collecting the state. -/
def runState (s : SysState) : List Op → SysState
  | [] => s
  | o :: rest => runState (step s o).1 rest

/-- Run a sequence of calls, collecting every byte delivered to user
space in order. -/
def runOut (s : SysState) : List Op → List Char
  | [] => []
  | o :: rest => (step s o).2.1 ++ runOut (step s o).1 rest

/-- Repeatedly read with `m`-byte requests, collecting the bytes, until
a read returns 0 (which also resets the offset); `fuel` bounds the
number of calls.  Returns the bytes drained and the final offset. -/
def drain (msg : List Nat) (m : Nat) : Nat → Nat → List Char × Nat
  | offset, 0 => ([], offset)
  | offset, fuel + 1 =>
      if (device_read msg m offset).ret = 0 then
        ([], (device_read msg m offset).offset)
      else
        ((device_read msg m offset).bytes ++
           (drain msg m (device_read msg m offset).offset fuel).1,
         (drain msg m (device_read msg m offset).offset fuel).2)

/-- The invariant of spec §3: the file offset used by `device_read`
stays within the selected answer string (including its terminator). -/
def cursorInv (s : SysState) : Prop := s.fpos ≤ (selStr s.msg).length

instance (s : SysState) : Decidable (cursorInv s) :=
  inferInstanceAs (Decidable (s.fpos ≤ (selStr s.msg).length))

/-- Output of the write-question-then-read-answer sequence, reading on
a fresh descriptor. -/
def writeReadOut (q : List Nat) : List Char :=
  runOut initState
    [Op.op_open, Op.op_write q q.length, Op.op_close, Op.op_open,
     Op.op_read MSG_LEN]

theorem readLoop_eq_take (s : List Char) (n : Nat) : readLoop s n = s.take n := by
  induction s generalizing n with
  | nil => cases n <;> rfl
  | cons c rest ih =>
      cases n with
      | zero => rfl
      | succ m => simp [readLoop, List.take_succ_cons, ih]

theorem decision_lt (msg : List Nat) : decision msg < 10 :=
  Nat.mod_lt _ (by decide)

theorem select_msg_no_nul (d : Nat) (hd : d < 10) :
    ∀ c ∈ (select_msg d).data, c ≠ Char.ofNat 0 := by
  interval_cases d <;> decide

theorem select_msg_length_le (d : Nat) (hd : d < 10) :
    ((select_msg d).data).length ≤ 37 := by
  interval_cases d <;> decide

theorem selStr_no_nul (msg : List Nat) :
    ∀ c ∈ selStr msg, c ≠ Char.ofNat 0 :=
  select_msg_no_nul _ (decision_lt msg)

theorem selStr_length_le (msg : List Nat) : (selStr msg).length ≤ 37 :=
  select_msg_length_le _ (decision_lt msg)

theorem cstrGet_of_ge (s : List Char) (i : Nat) (h : s.length ≤ i) :
    cstrGet s i = Char.ofNat 0 :=
  List.getD_eq_default _ _ h

theorem cstrGet_ne_of_lt (s : List Char) (i : Nat)
    (hs : ∀ c ∈ s, c ≠ Char.ofNat 0) (h : i < s.length) :
    cstrGet s i ≠ Char.ofNat 0 := by
  have he : cstrGet s i = s.get ⟨i, h⟩ := List.getD_eq_getElem s _ h
  rw [he]
  exact hs _ (List.get_mem s i h)

theorem device_read_at_end (msg : List Nat) (len offset : Nat)
    (h : offset = (selStr msg).length) :
    device_read msg len offset = ⟨[], 0, 0⟩ := by
  unfold device_read
  rw [if_pos (cstrGet_of_ge _ _ (le_of_eq h.symm))]

theorem device_read_mid (msg : List Nat) (len offset : Nat)
    (h : offset < (selStr msg).length) :
    device_read msg len offset =
      ⟨((selStr msg).drop offset).take len,
       ((min len ((selStr msg).length - offset) : Nat) : Int),
       offset + min len ((selStr msg).length - offset)⟩ := by
  unfold device_read
  rw [if_neg (cstrGet_ne_of_lt _ _ (selStr_no_nul msg) h), readLoop_eq_take]
  have hlen : (((selStr msg).drop offset).take len).length =
      min len ((selStr msg).length - offset) := by
    simp [List.length_take, List.length_drop]
  rw [ReadResult.mk.injEq]
  exact ⟨rfl, by rw [hlen], by rw [hlen]⟩

theorem wlen_le_src (src : List Nat) (offset : Nat) :
    wlen src offset ≤ src.length :=
  Nat.min_le_left _ _

theorem wlen_le_cap (src : List Nat) (offset : Nat) :
    wlen src offset ≤ MSG_LEN - offset :=
  Nat.min_le_right _ _

theorem getD_take_of_lt (l : List Nat) (n j : Nat) (h : j < n) :
    (l.take n).getD j 0 = l.getD j 0 := by
  rw [List.getD_eq_getElem?_getD, List.getD_eq_getElem?_getD,
    List.getElem?_take, if_pos h]

theorem copy_from_user_bytes_ok (src : List Nat) (readable len : Nat)
    (h : len ≤ readable) :
    copy_from_user_bytes src readable len = (src.take len, 0) := by
  unfold copy_from_user_bytes
  rw [if_pos h]

theorem copy_from_user_bytes_fault (src : List Nat) (readable len : Nat)
    (h : readable < len) :
    copy_from_user_bytes src readable len =
      (src.take readable ++ List.replicate (len - readable) 0, len - readable) := by
  unfold copy_from_user_bytes
  rw [if_neg (by omega)]

theorem copy_from_user_bytes_length (src : List Nat) (readable len : Nat)
    (h : len ≤ src.length) :
    (copy_from_user_bytes src readable len).1.length = len := by
  unfold copy_from_user_bytes
  by_cases hc : len ≤ readable
  · rw [if_pos hc]
    simp only [List.length_take]
    omega
  · rw [if_neg hc]
    simp only [List.length_append, List.length_take, List.length_replicate]
    omega

theorem splice_getD (msg data : List Nat) (offset w i : Nat)
    (hle : offset + w ≤ msg.length) (hw : data.length = w) :
    (msg.take offset ++ data ++ msg.drop (offset + w)).getD i 0 =
      if offset ≤ i ∧ i < offset + w then data.getD (i - offset) 0
      else msg.getD i 0 := by
  have hta : (msg.take offset).length = offset := by
    rw [List.length_take]
    omega
  rw [List.append_assoc, List.getD_eq_getElem?_getD, List.getElem?_append]
  by_cases h1 : i < offset
  · rw [if_pos (by omega : i < (msg.take offset).length), List.getElem?_take,
      if_pos h1, if_neg (by omega), List.getD_eq_getElem?_getD]
  · rw [if_neg (by omega : ¬i < (msg.take offset).length), hta,
      List.getElem?_append]
    by_cases h2 : i < offset + w
    · rw [if_pos (by omega : i - offset < data.length),
        if_pos (by omega : offset ≤ i ∧ i < offset + w),
        List.getD_eq_getElem?_getD]
    · rw [if_neg (by omega : ¬i - offset < data.length), hw,
        List.getElem?_drop, if_neg (by omega),
        List.getD_eq_getElem?_getD]
      have hi : offset + w + (i - offset - w) = i := by omega
      rw [hi]

theorem wbuf_length (msg src : List Nat) (readable offset : Nat)
    (hmsg : msg.length = MSG_LEN) (hofs : offset < MSG_LEN) :
    (wbuf msg src readable offset).length = MSG_LEN := by
  have h1 := wlen_le_cap src offset
  unfold wbuf
  rw [List.length_append, List.length_append, List.length_take,
    List.length_drop, copy_from_user_bytes_length _ _ _ (wlen_le_src src offset),
    hmsg]
  simp only [MSG_LEN] at *
  omega

theorem wbuf_getD (msg src : List Nat) (readable offset i : Nat)
    (hmsg : msg.length = MSG_LEN) (hofs : offset < MSG_LEN) :
    (wbuf msg src readable offset).getD i 0 =
      if offset ≤ i ∧ i < offset + wlen src offset then
        (copy_from_user_bytes src readable (wlen src offset)).1.getD (i - offset) 0
      else msg.getD i 0 := by
  have h1 := wlen_le_cap src offset
  exact splice_getD msg _ offset (wlen src offset) i (by omega)
    (copy_from_user_bytes_length _ _ _ (wlen_le_src src offset))

theorem device_write_full (msg src : List Nat) (readable offset : Nat)
    (h : MSG_LEN ≤ offset) :
    device_write msg src readable offset = ⟨msg, 0, 0⟩ := by
  unfold device_write
  rw [if_pos h]

theorem device_write_nofault (msg src : List Nat) (readable offset : Nat)
    (h : offset < MSG_LEN) (hr : wlen src offset ≤ readable) :
    device_write msg src readable offset =
      ⟨wbuf msg src readable offset, (wlen src offset : Int),
       offset + wlen src offset⟩ := by
  unfold device_write
  rw [if_neg (by omega), copy_from_user_bytes_ok src readable _ hr,
    if_neg (by simp)]

theorem device_write_fault (msg src : List Nat) (readable offset : Nat)
    (h : offset < MSG_LEN) (hf : readable < wlen src offset) :
    device_write msg src readable offset =
      ⟨wbuf msg src readable offset, -EFAULT, offset⟩ := by
  unfold device_write
  rw [if_neg (by omega)]
  have hc : (copy_from_user_bytes src readable (wlen src offset)).2 =
      wlen src offset - readable := by
    rw [copy_from_user_bytes_fault _ _ _ hf]
  rw [hc, if_pos (by omega)]

theorem take_append_drop_min (t : List Char) (m : Nat) :
    t.take m ++ t.drop (min m t.length) = t := by
  by_cases h : m ≤ t.length
  · rw [Nat.min_eq_left h, List.take_append_drop]
  · rw [Nat.min_eq_right (by omega), List.drop_length,
      List.take_of_length_le (by omega), List.append_nil]

theorem drain_spec (msg : List Nat) (m : Nat) (hm : 1 ≤ m) :
    ∀ (fuel offset : Nat), offset ≤ (selStr msg).length →
      (selStr msg).length - offset < fuel →
      drain msg m offset fuel = ((selStr msg).drop offset, 0) := by
  intro fuel
  induction fuel with
  | zero =>
      intro offset h1 h2
      omega
  | succ fuel ih =>
      intro offset h1 h2
      rcases Nat.eq_or_lt_of_le h1 with heq | hlt
      · rw [drain, device_read_at_end msg m offset heq]
        rw [heq, List.drop_length]
        simp
      · rw [drain, device_read_mid msg m offset hlt]
        simp only []
        rw [if_neg (by
          simp only [Int.natCast_eq_zero]
          omega)]
        rw [ih (offset + min m ((selStr msg).length - offset)) (by omega) (by omega)]
        have hdd : (selStr msg).drop (offset + min m ((selStr msg).length - offset)) =
            ((selStr msg).drop offset).drop (min m ((selStr msg).length - offset)) :=
          (List.drop_drop _ _ _).symm
        have hmin : min m ((selStr msg).length - offset) =
            min m (((selStr msg).drop offset).length) := by
          rw [List.length_drop]
        rw [hdd, hmin, take_append_drop_min]

theorem step_dev_open_of_ne_close (s : SysState) (o : Op)
    (h : s.dev_open = true) (ho : o ≠ Op.op_close) :
    (step s o).1.dev_open = true := by
  cases o with
  | op_open => simp [step, do_open, h]
  | op_close => exact absurd rfl ho
  | op_read len => simp [step, h]
  | op_write src readable => simp [step, h]

theorem runState_dev_open (s : SysState) (ops : List Op)
    (h : s.dev_open = true) (hops : ∀ o ∈ ops, o ≠ Op.op_close) :
    (runState s ops).dev_open = true := by
  induction ops generalizing s with
  | nil => exact h
  | cons o rest ih =>
      simp only [runState]
      exact ih _ (step_dev_open_of_ne_close s o h (hops o (by simp)))
        (fun o' ho' => hops o' (by simp [ho']))

theorem step_cursorInv (s : SysState) (o : Op) (hc : cursorInv s)
    (ho : ∀ src readable, o ≠ Op.op_write src readable) :
    cursorInv (step s o).1 := by
  cases o with
  | op_open =>
      by_cases hop : s.dev_open
      · simpa [step, do_open, hop] using hc
      · simp [step, do_open, hop, cursorInv]
  | op_close => simpa [step, do_release, cursorInv] using hc
  | op_read len =>
      by_cases hop : s.dev_open
      · simp only [step, if_pos hop]
        have hc' : s.fpos ≤ (selStr s.msg).length := hc
        rcases Nat.lt_or_ge s.fpos (selStr s.msg).length with hlt | hge
        · rw [device_read_mid _ _ _ hlt]
          simp only [cursorInv]
          omega
        · rw [device_read_at_end _ _ _ (Nat.le_antisymm hc' hge)]
          simp [cursorInv]
      · simpa [step, hop] using hc
  | op_write src readable => exact absurd rfl (ho src readable)

/-- Claim C1: for every content of the 80-byte message buffer, the
answer selector computes the sum of all 80 buffer bytes (unsigned)
reduced modulo 10; the result is always an index in [0,9], and that
index selects exactly one of the 10 fixed response strings (the switch
agrees with the 10-entry answer table, whose entries are pairwise
distinct). -/
theorem ball_c1_selector (msg : List Nat) (h1 : msg.length = 80)
    (h2 : ∀ b ∈ msg, b < 256) :
    decision msg = msg.sum % 10 ∧
    decision msg < 10 ∧
    answerTable.getD (decision msg) "" = select_msg (decision msg) ∧
    answerTable.length = 10 ∧
    answerTable.Nodup := by
  refine ⟨rfl, decision_lt msg, ?_, rfl, by decide⟩
  have h := decision_lt msg
  set d := decision msg with hd
  interval_cases d <;> rfl

/-- Witness for C1 at the all-zero buffer. -/
theorem ball_c1_selector_witness :
    decision (List.replicate 80 0) = (List.replicate 80 0 : List Nat).sum % 10 ∧
    decision (List.replicate 80 0) < 10 ∧
    answerTable.getD (decision (List.replicate 80 0)) "" =
      select_msg (decision (List.replicate 80 0)) ∧
    answerTable.length = 10 ∧
    answerTable.Nodup :=
  ball_c1_selector (List.replicate 80 0) (by decide) (by decide)

/-- Claim C3: open fails with Busy exactly when a session is active:
with the device open, `device_open` returns `-EBUSY` and changes
nothing; it stays Busy across any further non-close operations; after a
close it succeeds again; and an open succeeds exactly when no session
holds the flag. -/
theorem ball_c3_exclusive_open (s : SysState) (ops : List Op)
    (h1 : s.dev_open = true) (h2 : ∀ o ∈ ops, o ≠ Op.op_close) :
    do_open s = (s, -EBUSY) ∧
    (runState s ops).dev_open = true ∧
    do_open (runState s ops) = (runState s ops, -EBUSY) ∧
    (do_open (do_release (runState s ops))).2 = 0 ∧
    (do_open (do_release (runState s ops))).1.dev_open = true ∧
    (∀ t : SysState, (do_open t).2 = 0 ↔ t.dev_open = false) := by
  have hrun := runState_dev_open s ops h1 h2
  refine ⟨by simp [do_open, h1], hrun, by simp [do_open, hrun], ?_, ?_, ?_⟩
  · simp [do_open, do_release]
  · simp [do_open, do_release]
  · intro t
    by_cases ht : t.dev_open
    · simp [do_open, ht, EBUSY]
    · simp [do_open, ht]

/-- Witness for C3: an open device, followed by a read, keeps the
device Busy for a second open until release. -/
theorem ball_c3_exclusive_open_witness :
    do_open ⟨true, List.replicate 80 0, 0⟩ = (⟨true, List.replicate 80 0, 0⟩, -EBUSY) ∧
    (runState ⟨true, List.replicate 80 0, 0⟩ [Op.op_read 1]).dev_open = true ∧
    do_open (runState ⟨true, List.replicate 80 0, 0⟩ [Op.op_read 1]) =
      (runState ⟨true, List.replicate 80 0, 0⟩ [Op.op_read 1], -EBUSY) ∧
    (do_open (do_release (runState ⟨true, List.replicate 80 0, 0⟩ [Op.op_read 1]))).2 = 0 ∧
    (do_open (do_release (runState ⟨true, List.replicate 80 0, 0⟩ [Op.op_read 1]))).1.dev_open = true ∧
    (∀ t : SysState, (do_open t).2 = 0 ↔ t.dev_open = false) :=
  ball_c3_exclusive_open ⟨true, List.replicate 80 0, 0⟩ [Op.op_read 1] rfl (by decide)

/-- Claim C8: the answer selection is deterministic: the selector is a
pure function of the buffer, and re-running a write-then-read sequence
with an identical question from the same initial state reproduces
byte-for-byte identical output; the embedding of the code contains no
entropy source. -/
theorem ball_c8_deterministic (B1 B2 Q1 Q2 : List Nat)
    (hB : B1 = B2) (hQ : Q1 = Q2) :
    decision B1 = decision B2 ∧
    select_msg (decision B1) = select_msg (decision B2) ∧
    writeReadOut Q1 = writeReadOut Q2 ∧
    (∀ (s : SysState) (ops1 ops2 : List Op), ops1 = ops2 →
      runOut s ops1 = runOut s ops2) := by
  subst hB
  subst hQ
  exact ⟨rfl, rfl, rfl, fun s ops1 ops2 h => by rw [h]⟩

/-- Witness for C8 at a concrete buffer and question. -/
theorem ball_c8_deterministic_witness :
    decision [7] = decision [7] ∧
    select_msg (decision [7]) = select_msg (decision [7]) ∧
    writeReadOut [101] = writeReadOut [101] ∧
    (∀ (s : SysState) (ops1 ops2 : List Op), ops1 = ops2 →
      runOut s ops1 = runOut s ops2) :=
  ball_c8_deterministic [7] [7] [101] [101] rfl rfl

/-- Claim C9: neither open nor close modifies the message buffer, so
the question written in one session persists into the next, and a read
performed before any write in a fresh session is answered from the
previous session's buffer (initially all zero). -/
theorem ball_c9_frame (s : SysState) (len : Nat) :
    (do_open s).1.msg = s.msg ∧
    (do_release s).msg = s.msg ∧
    (do_open (do_release s)).1.msg = s.msg ∧
    (do_open (do_release s)).1.fpos = 0 ∧
    (step (do_open (do_release s)).1 (Op.op_read len)).2.1 =
      (device_read s.msg len 0).bytes ∧
    initState.msg = List.replicate 80 0 := by
  refine ⟨?_, rfl, ?_, ?_, ?_, rfl⟩
  · by_cases h : s.dev_open <;> simp [do_open, h]
  · simp [do_open, do_release]
  · simp [do_open, do_release]
  · simp [step, do_open, do_release]

/-- Counterexample to C6 as stated: from the initial state, open the
device and write six zero bytes; the shared file offset becomes 6 while
the selected answer "Yes." has length 5, so the read cursor leaves
[0, len(selected_answer)].  In such a state the driver's next read
dereferences `*(msg_ptr + *offset)` past the end of the string literal,
out of bounds. -/
theorem ball_c6_counterexample :
    ¬ cursorInv (runState initState [Op.op_open, Op.op_write (List.replicate 6 0) 6]) := by
  decide

/-- Claim C6 (amended): the invariant cursor ∈ [0, len(selected_answer)]
holds in the initial state and is preserved by open, close and read, but
not by every operation: a write can move the shared file offset beyond
the selected answer's length (see the counterexample), and from such a
state the C read path dereferences the string literal out of bounds, so
no bound on the cursor is claimed there. -/
theorem ball_c6_amended (s : SysState) (o : Op)
    (ho : ∀ src readable, o ≠ Op.op_write src readable)
    (hc : cursorInv s) :
    cursorInv (step s o).1 ∧ cursorInv initState :=
  ⟨step_cursorInv s o hc ho, by simp [cursorInv, initState]⟩

/-- Witness for C6 (amended) at a concrete state and a read call. -/
theorem ball_c6_amended_witness :
    cursorInv (step ⟨true, List.replicate 80 0, 3⟩ (Op.op_read 2)).1 ∧
    cursorInv initState :=
  ball_c6_amended ⟨true, List.replicate 80 0, 3⟩ (Op.op_read 2)
    (fun src readable h => Op.noConfusion h) (by decide)

/-- Claim C2: a read whose offset indexes the terminator of the
selected string resets the offset and returns 0 bytes; otherwise it
returns min(requested length, remaining bytes) bytes taken from the
string at the offset and advances the offset by that count; repeatedly
reading with requests of at least one byte drains the whole string and
the final zero-byte read resets the offset to 0. -/
theorem ball_c2_read_contract (msg : List Nat) (len offset m : Nat)
    (hm : 1 ≤ m) :
    (offset = (selStr msg).length → device_read msg len offset = ⟨[], 0, 0⟩) ∧
    (offset < (selStr msg).length →
      device_read msg len offset =
        ⟨((selStr msg).drop offset).take len,
         ((min len ((selStr msg).length - offset) : Nat) : Int),
         offset + min len ((selStr msg).length - offset)⟩) ∧
    drain msg m 0 ((selStr msg).length + 1) = (selStr msg, 0) := by
  refine ⟨fun h => device_read_at_end _ _ _ h,
    fun h => device_read_mid _ _ _ h, ?_⟩
  have hd := drain_spec msg m hm ((selStr msg).length + 1) 0 (Nat.zero_le _) (by omega)
  simpa using hd

/-- Witness for C2: reading the zero-buffer answer "Yes." from offset 2
with a 3-byte request, and draining it in 2-byte requests. -/
theorem ball_c2_read_contract_witness :
    (2 = (selStr (List.replicate 80 0)).length →
      device_read (List.replicate 80 0) 3 2 = ⟨[], 0, 0⟩) ∧
    (2 < (selStr (List.replicate 80 0)).length →
      device_read (List.replicate 80 0) 3 2 =
        ⟨((selStr (List.replicate 80 0)).drop 2).take 3,
         ((min 3 ((selStr (List.replicate 80 0)).length - 2) : Nat) : Int),
         2 + min 3 ((selStr (List.replicate 80 0)).length - 2)⟩) ∧
    drain (List.replicate 80 0) 2 0 ((selStr (List.replicate 80 0)).length + 1) =
      (selStr (List.replicate 80 0), 0) :=
  ball_c2_read_contract (List.replicate 80 0) 3 2 2 (by decide)

/-- Claim C10: a write with offset < 80 on a fully readable source
writes exactly min(len(bytes), 80 - offset) bytes, the new offset never
exceeds 80, and the buffer keeps its 80-byte extent (no store outside
indices [0,79]). -/
theorem ball_c10_write_bounded (msg src : List Nat) (offset : Nat)
    (hmsg : msg.length = 80) (hofs : offset < 80) :
    (device_write msg src src.length offset).ret =
      ((min src.length (80 - offset) : Nat) : Int) ∧
    (device_write msg src src.length offset).offset =
      offset + min src.length (80 - offset) ∧
    offset + min src.length (80 - offset) ≤ 80 ∧
    (device_write msg src src.length offset).msg.length = 80 := by
  rw [device_write_nofault msg src src.length offset hofs (wlen_le_src src offset)]
  have hc := wlen_le_cap src offset
  refine ⟨rfl, rfl, ?_, wbuf_length _ _ _ _ hmsg hofs⟩
  simp only [wlen, MSG_LEN] at hc
  omega

/-- Witness for C10 at a concrete buffer, source and offset. -/
theorem ball_c10_write_bounded_witness :
    (device_write (List.replicate 80 0) [1, 2, 3] [1, 2, 3].length 78).ret =
      ((min [1, 2, 3].length (80 - 78) : Nat) : Int) ∧
    (device_write (List.replicate 80 0) [1, 2, 3] [1, 2, 3].length 78).offset =
      78 + min [1, 2, 3].length (80 - 78) ∧
    78 + min [1, 2, 3].length (80 - 78) ≤ 80 ∧
    (device_write (List.replicate 80 0) [1, 2, 3] [1, 2, 3].length 78).msg.length = 80 :=
  ball_c10_write_bounded (List.replicate 80 0) [1, 2, 3] 78 (by decide) (by decide)

/-- Claim C4: with offset < 80 a write on a fully readable source
copies exactly min(len(bytes), 80 - offset) bytes into the buffer
starting at the offset (bytes elsewhere unchanged), advances the offset
by that count and returns it; with offset ≥ 80 it resets the offset to
0 and returns 0 with the buffer untouched. -/
theorem ball_c4_write_contract (msg src : List Nat) (offset : Nat)
    (hmsg : msg.length = 80) :
    (offset < 80 →
      (device_write msg src src.length offset).ret =
        ((min src.length (80 - offset) : Nat) : Int) ∧
      (device_write msg src src.length offset).offset =
        offset + min src.length (80 - offset) ∧
      (∀ i : Nat, (device_write msg src src.length offset).msg.getD i 0 =
        if offset ≤ i ∧ i < offset + min src.length (80 - offset) then
          src.getD (i - offset) 0
        else msg.getD i 0)) ∧
    (80 ≤ offset → device_write msg src src.length offset = ⟨msg, 0, 0⟩) := by
  constructor
  · intro h
    rw [device_write_nofault msg src src.length offset h (wlen_le_src src offset)]
    refine ⟨rfl, rfl, fun i => ?_⟩
    rw [wbuf_getD msg src src.length offset i hmsg h,
      copy_from_user_bytes_ok src src.length _ (wlen_le_src src offset)]
    simp only [wlen, MSG_LEN]
    by_cases hi : offset ≤ i ∧ i < offset + min src.length (80 - offset)
    · rw [if_pos hi, if_pos hi, getD_take_of_lt _ _ _ (by omega)]
    · rw [if_neg hi, if_neg hi]
  · intro h
    exact device_write_full msg src src.length offset h

/-- Witness for C4 at a concrete buffer, source and offset. -/
theorem ball_c4_write_contract_witness :
    (5 < 80 →
      (device_write (List.replicate 80 0) [9, 9] [9, 9].length 5).ret =
        ((min [9, 9].length (80 - 5) : Nat) : Int) ∧
      (device_write (List.replicate 80 0) [9, 9] [9, 9].length 5).offset =
        5 + min [9, 9].length (80 - 5) ∧
      (∀ i : Nat, (device_write (List.replicate 80 0) [9, 9] [9, 9].length 5).msg.getD i 0 =
        if 5 ≤ i ∧ i < 5 + min [9, 9].length (80 - 5) then
          ([9, 9] : List Nat).getD (i - 5) 0
        else (List.replicate 80 0 : List Nat).getD i 0)) ∧
    (80 ≤ 5 → device_write (List.replicate 80 0) [9, 9] [9, 9].length 5 =
      ⟨List.replicate 80 0, 0, 0⟩) :=
  ball_c4_write_contract (List.replicate 80 0) [9, 9] 5 (by decide)

/-- Claim C5: when the user source cannot be fully read, the write
returns `-EFAULT`, the offset is not advanced, the open flag is
untouched, and the buffer keeps its extent with every byte outside the
partially overwritten window unchanged. -/
theorem ball_c5_copyfault (msg src : List Nat) (readable offset : Nat)
    (hmsg : msg.length = 80) (hofs : offset < 80)
    (hf : readable < min src.length (80 - offset)) :
    (device_write msg src readable offset).ret = -EFAULT ∧
    (device_write msg src readable offset).offset = offset ∧
    (device_write msg src readable offset).msg.length = 80 ∧
    (∀ i : Nat, i < offset ∨ offset + min src.length (80 - offset) ≤ i →
      (device_write msg src readable offset).msg.getD i 0 = msg.getD i 0) ∧
    (∀ t : SysState, (step t (Op.op_write src readable)).1.dev_open = t.dev_open) := by
  rw [device_write_fault msg src readable offset hofs hf]
  refine ⟨rfl, rfl, wbuf_length _ _ _ _ hmsg hofs, fun i hi => ?_, fun t => ?_⟩
  · rw [wbuf_getD msg src readable offset i hmsg hofs, if_neg ?_]
    simp only [wlen, MSG_LEN]
    omega
  · by_cases ht : t.dev_open <;> simp [step, ht]

/-- Witness for C5: a 4-byte source of which only 1 byte is readable,
written at offset 78. -/
theorem ball_c5_copyfault_witness :
    (device_write (List.replicate 80 0) [1, 2, 3, 4] 1 78).ret = -EFAULT ∧
    (device_write (List.replicate 80 0) [1, 2, 3, 4] 1 78).offset = 78 ∧
    (device_write (List.replicate 80 0) [1, 2, 3, 4] 1 78).msg.length = 80 ∧
    (∀ i : Nat, i < 78 ∨ 78 + min [1, 2, 3, 4].length (80 - 78) ≤ i →
      (device_write (List.replicate 80 0) [1, 2, 3, 4] 1 78).msg.getD i 0 =
        (List.replicate 80 0 : List Nat).getD i 0) ∧
    (∀ t : SysState, (step t (Op.op_write [1, 2, 3, 4] 1)).1.dev_open = t.dev_open) :=
  ball_c5_copyfault (List.replicate 80 0) [1, 2, 3, 4] 1 78 (by decide) (by decide) (by decide)

/-- Claim C7: writing 80 zero bytes gives checksum 0, index 0, and a
fresh-session read returns "Yes.\n"; writing a question whose bytes sum
to 101 gives index 1 and a fresh-session read returns
"Without a doubt.\n". -/
theorem ball_c7_examples (q : List Nat) (h1 : q.length ≤ 80) (h2 : q.sum = 101) :
    runOut initState [Op.op_open, Op.op_write (List.replicate 80 0) 80,
      Op.op_close, Op.op_open, Op.op_read 100] = "Yes.\n".data ∧
    decision (List.replicate 80 0) = 0 ∧
    runOut initState [Op.op_open, Op.op_write q q.length, Op.op_close,
      Op.op_open, Op.op_read 100] = "Without a doubt.\n".data ∧
    decision (q ++ List.replicate (80 - q.length) 0) = 1 := by
  have hsum : (q ++ List.replicate (80 - q.length) 0).sum = 101 := by
    rw [List.sum_append, List.sum_replicate, smul_zero, Nat.add_zero, h2]
  have hdec : decision (q ++ List.replicate (80 - q.length) 0) = 1 := by
    simp [decision, checksum, NUM_CHOICES, hsum]
  have hwlen : wlen q 0 = q.length := by
    simp only [wlen, MSG_LEN, Nat.sub_zero]
    omega
  have hw : device_write (List.replicate MSG_LEN 0) q q.length 0 =
      ⟨q ++ List.replicate (80 - q.length) 0, (q.length : Int), q.length⟩ := by
    rw [device_write_nofault _ _ _ _ (by simp [MSG_LEN]) (wlen_le_src q 0)]
    unfold wbuf
    rw [hwlen, copy_from_user_bytes_ok q q.length q.length le_rfl, List.take_length,
      List.take_zero, List.nil_append, Nat.zero_add, List.drop_replicate]
    rfl
  have hsel : selStr (q ++ List.replicate (80 - q.length) 0) =
      "Without a doubt.\n".data := by
    unfold selStr
    rw [hdec]
    decide
  have hread : device_read (q ++ List.replicate (80 - q.length) 0) 100 0 =
      ⟨"Without a doubt.\n".data, ((17 : Nat) : Int), 17⟩ := by
    rw [device_read_mid _ _ _ (by rw [hsel]; decide), hsel]
    decide
  refine ⟨by decide, by decide, ?_, hdec⟩
  simp [runOut, runState, step, do_open, do_release, initState, hw, hread]

/-- Witness for C7 with the one-byte question [101]. -/
theorem ball_c7_examples_witness :
    runOut initState [Op.op_open, Op.op_write (List.replicate 80 0) 80,
      Op.op_close, Op.op_open, Op.op_read 100] = "Yes.\n".data ∧
    decision (List.replicate 80 0) = 0 ∧
    runOut initState [Op.op_open, Op.op_write [101] [101].length, Op.op_close,
      Op.op_open, Op.op_read 100] = "Without a doubt.\n".data ∧
    decision ([101] ++ List.replicate (80 - [101].length) 0) = 1 :=
  ball_c7_examples [101] (by decide) (by decide)

end Ball
